import Mathlib

/-!
Shallow embedding of the typed builtin-operation layer (`pyccel/ast/builtins.py`)
and the Fortran-C binding layer (`pyccel/ast/bind_c.py`) of this repository,
together with proofs settling the specification claims about them.
-/

mutual

/-- Element kinds (`pyccel.ast.datatypes`): the Native* scalar datatypes used by
the builtins layer, plus the structural composite `NativeInhomogeneousTuple`
(which records each child's individual datatype) and the container datatypes.
Datatype equality in the source is the `==` of the singleton datatype classes;
it is embedded as structural equality. -/
inductive DType where
  | bool
  | int
  | float
  | complex
  | generic
  | homogeneousTuple
  | homogeneousList
  | inhomogeneousTuple (elems : DTypeList)
deriving DecidableEq, Repr

/-- The list of child datatypes recorded by `NativeInhomogeneousTuple`. -/
inductive DTypeList where
  | nil
  | cons (head : DType) (tail : DTypeList)
deriving DecidableEq, Repr

end

/-- A compile-time size expression appearing as one component of a shape tuple:
either a `LiteralInteger` (statically known) or some other expression (kept
symbolic, identified by a name). -/
inductive SizeExpr where
  | lit (n : Int)
  | sym (s : String)
deriving DecidableEq, Repr

/-- Convert a Lean list of datatypes into the payload carried by
`NativeInhomogeneousTuple(*[a.dtype for a in args])`. -/
def DTypeList.ofList : List DType → DTypeList
  | [] => .nil
  | d :: ds => .cons d (DTypeList.ofList ds)

/-- A Python-level error raised during node construction: the builtin
exceptions TypeError and ValueError, and the user-facing PyccelError
(pyccel.errors.errors), each carrying its message. -/
inductive PyError where
  | typeError (msg : String)
  | valueError (msg : String)
  | pyccelError (msg : String)
deriving DecidableEq, Repr

/-- Decidable equality of construction outcomes, so that concrete error and
success values evaluate in witnesses. -/
instance exceptDecidableEq {ε α : Type} [DecidableEq ε] [DecidableEq α] :
    DecidableEq (Except ε α) := fun x y =>
  match x, y with
  | .ok a, .ok b =>
      if h : a = b then isTrue (by rw [h]) else isFalse (by intro hc; cases hc; exact h rfl)
  | .error e, .error f =>
      if h : e = f then isTrue (by rw [h]) else isFalse (by intro hc; cases hc; exact h rfl)
  | .ok _, .error _ => isFalse (by intro hc; cases hc)
  | .error _, .ok _ => isFalse (by intro hc; cases hc)

/-- The construction-time type signature of an already-typed AST node, as read
by the constructors of builtins.py through the accessors dtype, precision,
rank, shape and order. A shape is a tuple of per-dimension size expressions in
which a component may be None (unknown); the whole shape is None for rank-0 or
shapeless nodes. The field isHomogeneousAttr records whether the node carries
an is_homogeneous attribute and with which value (none means the attribute is
absent, as for nodes outside the aggregate-literal family), which is what
getattr(arg, is_homogeneous, False) consults. -/
structure TypedNode where
  dtype : DType
  precision : Int
  rank : Nat
  shape : Option (List (Option SizeExpr))
  order : Option Char
  isHomogeneousAttr : Option Bool
deriving DecidableEq, Repr

/-- Modelled from the spec: get_final_precision, imported by builtins.py from
pyccel.ast.internals which is not in src. The glossary states that a precision
of -1 conventionally means default/unspecified, so -1 resolves to a fixed
per-kind default width (the conventional 64-bit platform defaults); any other
precision is returned unchanged. No claim depends on the concrete default
values, only on the resolution being a function of kind and stored precision. -/
def default_precision : DType → Int
  | .bool => 4
  | _ => 8

/-- Modelled from the spec (see default_precision): the final precision of a
node, resolving the default marker -1. -/
def get_final_precision (a : TypedNode) : Int :=
  if a.precision = -1 then default_precision a.dtype else a.precision

/-- The homogeneity test shared by PythonTuple.__init__ and PythonList.__init__
(src/pyccel/ast/builtins.py lines 522-528 and 722-728): the first element must
not be of generic kind, and every later element must not be generic and must
agree with the first element on kind, final precision, rank and order. -/
def aggregate_is_homogeneous : List TypedNode → Bool
  | [] => false
  | arg0 :: rest =>
      let precision := get_final_precision arg0
      arg0.dtype != DType.generic &&
        rest.all (fun a => a.dtype != DType.generic &&
          arg0.dtype == a.dtype &&
          precision == get_final_precision a &&
          arg0.rank == a.rank &&
          arg0.order == a.order)

/-- The effective child shape used when composing aggregate shapes
(builtins.py lines 534 and 733): the empty tuple for a rank-0 child, otherwise
the shape tuple of the child (a None shape, which the source never meets on
this path for a well-formed positive-rank node, is read as the empty tuple). -/
def inner_shape_of (a : TypedNode) : List (Option SizeExpr) :=
  if a.rank = 0 then [] else a.shape.getD []

/-- PythonTuple.__init__ at the semantic stage (builtins.py lines 508-554):
computes the construction-time type signature of a tuple literal from the
already-typed element nodes and records the is_homogeneous flag. An empty
tuple is the distinct generic rank-0 case. For a homogeneous tuple the shape
is (len(args),) + inner_shape[0] and the rank is the length of that shape (the
source first sets max rank + 1 and then overwrites it with len(shape)); for an
inhomogeneous tuple the kind becomes the structural composite of the element
kinds and the shape degrades as the ranks disagree. The _inconsistent_shape
flag, the stored element list, class_type and the syntactic stage are not
modelled (no claim consults them). -/
def pythonTupleNew (args : List TypedNode) : TypedNode :=
  match args with
  | [] =>
      { dtype := .generic, precision := 0, rank := 0, shape := none,
        order := none, isHomogeneousAttr := some false }
  | arg0 :: _ =>
      if aggregate_is_homogeneous args then
        let shape := some (SizeExpr.lit (args.length : Int)) :: inner_shape_of arg0
        { dtype := arg0.dtype, precision := arg0.precision,
          rank := shape.length, shape := some shape,
          order := if shape.length < 2 then none else some 'C',
          isHomogeneousAttr := some true }
      else
        let maxRank := (args.map TypedNode.rank).foldl max 0
        let rank := maxRank + 1
        let shape : List (Option SizeExpr) :=
          if rank = 1 then [some (.lit (args.length : Int))]
          else if args.any (fun a => a.rank != maxRank) then
            some (.lit (args.length : Int)) :: List.replicate (rank - 1) none
          else
            some (.lit (args.length : Int)) :: arg0.shape.getD []
        { dtype := .inhomogeneousTuple (DTypeList.ofList (args.map TypedNode.dtype)),
          precision := 0, rank := rank, shape := some shape,
          order := if rank < 2 then none else some 'C',
          isHomogeneousAttr := some false }

/-- PythonList.__init__ at the semantic stage (builtins.py lines 709-741):
identical signature computation to the homogeneous tuple branch, but an
inhomogeneous element sequence raises TypeError instead of building a
composite. The is_homogeneous property of a constructed list is always True
(builtins.py lines 763-772). -/
def pythonListNew (args : List TypedNode) : Except PyError TypedNode :=
  match args with
  | [] =>
      .ok { dtype := .generic, precision := 0, rank := 0, shape := none,
            order := none, isHomogeneousAttr := some true }
  | arg0 :: _ =>
      if aggregate_is_homogeneous args then
        let shape := some (SizeExpr.lit (args.length : Int)) :: inner_shape_of arg0
        .ok { dtype := arg0.dtype, precision := arg0.precision,
              rank := shape.length, shape := some shape,
              order := if shape.length < 2 then none else some 'C',
              isHomogeneousAttr := some true }
      else
        .error (.typeError ("Can\x27t create an inhomogeneous list"))

/-- Modelled from the spec: the printable name of an element kind (the str of
the datatype singletons of pyccel.ast.datatypes, which is not in src); the
glossary names the scalar data categories, printed by the source under their
Python type names. Only the PythonMin error message consults this. -/
def dtype_str : DType → String
  | .bool => ("bool")
  | .int => ("int")
  | .float => ("float")
  | .complex => ("complex")
  | .generic => ("generic")
  | .homogeneousTuple => ("tuple")
  | .homogeneousList => ("list")
  | .inhomogeneousTuple _ => ("tuple")

/-- PythonMax.__init__ (builtins.py lines 1048-1063) for a call with a number
of positional arguments other than one: the arguments are packed into a
PythonTuple; an inhomogeneous pack raises the user-facing PyccelError. The
message bug of line 1057 is reproduced faithfully: the join iterates over the
plain string literal (the interpolation prefix is missing there, unlike in
PythonMin), so the message repeats the placeholder text once per argument
instead of naming the argument kinds and precisions. The single-argument
branch, which unwraps an already-built aggregate, is not exercised by any
claim and is marked unmodelled. -/
def pythonMaxNew (args : List TypedNode) : Except PyError TypedNode :=
  match args with
  | [_] => .error (.typeError ("PythonMax single-argument aggregate path: not modelled"))
  | _ =>
      let x := pythonTupleNew args
      if x.isHomogeneousAttr.getD false then
        .ok { dtype := x.dtype, precision := x.precision, rank := 0, shape := none,
              order := none, isHomogeneousAttr := none }
      else
        let types := String.intercalate (", ")
          (args.map (fun _ => ("\x7bxi.dtype\x7d(\x7bxi.precision\x7d)")))
        .error (.pyccelError
          (("Cannot determine final dtype of \x27max\x27 call with arguments of different types (")
            ++ types ++ ("). Please cast arguments to the desired dtype")))

/-- PythonMin.__init__ (builtins.py lines 1083-1098): identical to PythonMax
except that the message interpolation is present (line 1092 is an f-string),
so the error names each offending kind/precision pair. The single-argument
branch is likewise unmodelled. -/
def pythonMinNew (args : List TypedNode) : Except PyError TypedNode :=
  match args with
  | [_] => .error (.typeError ("PythonMin single-argument aggregate path: not modelled"))
  | _ =>
      let x := pythonTupleNew args
      if x.isHomogeneousAttr.getD false then
        .ok { dtype := x.dtype, precision := x.precision, rank := 0, shape := none,
              order := none, isHomogeneousAttr := none }
      else
        let types := String.intercalate (", ")
          (args.map (fun xi => dtype_str xi.dtype ++ ("(") ++ toString xi.precision ++ (")")))
        .error (.pyccelError
          (("Cannot determine final dtype of \x27min\x27 call with arguments of different types (")
            ++ types ++ ("). Please cast arguments to the desired dtype")))

/-- The first shape component a.shape[0] consulted by PythonZip and PythonLen
(builtins.py lines 948 and 668); reading an absent component yields the
unknown marker (the source would fail on such a node; the theorems supply
nodes that do have a first shape component where it matters). -/
def shape0 (a : TypedNode) : Option SizeExpr := (a.shape.getD []).headD none

/-- The computed logical length of a zip: either the integer minimum of the
statically known source lengths, or the first shape component of the first
source kept as an expression. -/
inductive ZipLength where
  | known (n : Int)
  | expr (e : Option SizeExpr)
deriving DecidableEq, Repr

/-- The comprehension of builtins.py line 948: the python_value of the first
shape component of each source whose first shape component is a
LiteralInteger. -/
def statically_known_lengths (args : List TypedNode) : List Int :=
  args.filterMap (fun a =>
    match shape0 a with
    | some (.lit n) => some n
    | _ => none)

/-- PythonZip.__init__ at the semantic stage (builtins.py lines 938-952):
fewer than two sources raises ValueError; otherwise the length is the minimum
of the python_value of those first shape components which are integer
literals, falling back to the first shape component of the first source when
no source length is statically known. -/
def pythonZipNew (args : List TypedNode) : Except PyError ZipLength :=
  match args with
  | a0 :: a1 :: rest =>
      match statically_known_lengths (a0 :: a1 :: rest) with
      | [] => .ok (.expr (shape0 a0))
      | l :: ls => .ok (.known (ls.foldl min l))
  | _ => .error (.valueError ("args must be of length > 2"))

/-- getattr(arg, is_homogeneous, False): true only when the node carries the
attribute with value True. -/
def getattr_is_homogeneous (a : TypedNode) : Bool := a.isHomogeneousAttr.getD false

/-- The value produced by the PythonLen factory: either the first shape
component of the argument, returned directly with no node allocated, or a
dedicated len node wrapping the argument. -/
inductive PyLenResult where
  | shapeComponent (e : Option SizeExpr)
  | lenNode (arg : TypedNode)
deriving DecidableEq, Repr

/-- PythonLen.__new__ (builtins.py lines 666-670): when the argument is not
known to be homogeneous, its first shape component is returned directly;
otherwise the dedicated len node is allocated. -/
def pythonLenNew (arg : TypedNode) : PyLenResult :=
  if getattr_is_homogeneous arg = false then .shapeComponent (shape0 arg)
  else .lenNode arg

/-- The class-level element kind of a PythonLen node (builtins.py line 659). -/
def pythonLen_dtype : DType := .int

/-- The class-level rank of a PythonLen node (builtins.py line 661). -/
def pythonLen_rank : Nat := 0

/-- Modelled from the spec: a typical non-aggregate argument of len, an
already-typed rank-1 array variable. Nodes outside the aggregate-literal
family do not define is_homogeneous inside src (pyccel.ast.variable and
pyccel.ast.basic are not in src); spec section 4.4 mandates that len builds a
dedicated node for anything other than an inhomogeneous aggregate, so such a
node is modelled as exposing is_homogeneous = True. -/
def specArrayVariableNode : TypedNode :=
  { dtype := .float, precision := 8, rank := 1,
    shape := some [some (.sym ("n"))], order := none, isHomogeneousAttr := some true }

/-- Scalar expression nodes as seen by the cast factories PythonBool,
PythonFloat, PythonInt and by PythonComplex (builtins.py): the literal classes
of pyccel.ast.literals (LiteralInteger, LiteralFloat, LiteralComplex, the
imaginary unit, Nil), a variable carrying its kind, precision and is_optional
flag, the nodes allocated by the factories themselves, and the logical and
arithmetic operator nodes the factories can emit. Python float values are
embedded as rationals (the literal folding of the claims involves only exact
values). -/
inductive Expr where
  | literalInteger (v : Int) (precision : Int)
  | literalFloat (v : ℚ) (precision : Int)
  | literalComplex (re : ℚ) (im : ℚ) (precision : Int)
  | literalImaginaryUnit
  | nil
  | var (name : String) (dtype : DType) (precision : Int) (opt : Bool)
  | pythonFloatNode (arg : Expr)
  | pythonIntNode (arg : Expr)
  | pythonBoolNode (arg : Expr)
  | pythonComplexNode (arg0 arg1 : Expr)
  | pyccelAnd (a b : Expr)
  | pyccelIsNot (a b : Expr)
  | pyccelAdd (a b : Expr)
  | pyccelMul (a b : Expr)
deriving DecidableEq, Repr

/-- Modelled from the spec: the element kind computed by the arithmetic
operator nodes (pyccel.ast.operators is not in src): the usual numeric
promotion with complex dominating (spec section 2, construction-time type
inference). Only the complex-or-not question is ever consulted by the
embedded factories. -/
def promoteDType (a b : DType) : DType :=
  if a = .complex ∨ b = .complex then .complex
  else if a = .float ∨ b = .float then .float
  else if a = .int ∨ b = .int then .int
  else .bool

/-- The element kind exposed by the dtype accessor of each node: literal and
factory nodes per their class-level _dtype attributes (builtins.py), variables
per their declaration, operator nodes per promotion; Nil is untyped. -/
def Expr.dtype : Expr → DType
  | .literalInteger _ _ => .int
  | .literalFloat _ _ => .float
  | .literalComplex _ _ _ => .complex
  | .literalImaginaryUnit => .complex
  | .nil => .generic
  | .var _ d _ _ => d
  | .pythonFloatNode _ => .float
  | .pythonIntNode _ => .int
  | .pythonBoolNode _ => .bool
  | .pythonComplexNode _ _ => .complex
  | .pyccelAnd _ _ => .bool
  | .pyccelIsNot _ _ => .bool
  | .pyccelAdd a b => promoteDType a.dtype b.dtype
  | .pyccelMul a b => promoteDType a.dtype b.dtype

/-- isinstance(arg, Literal) for the embedded literal classes
(pyccel.ast.literals): the integer, float and complex literals and the
imaginary unit; Nil and every other node are not Literal instances. -/
def Expr.isLiteral : Expr → Bool
  | .literalInteger _ _ => true
  | .literalFloat _ _ => true
  | .literalComplex _ _ _ => true
  | .literalImaginaryUnit => true
  | _ => false

/-- The real/imaginary decomposition of a literal operand performed by the
folding branch of PythonComplex.__new__ (builtins.py lines 269-287): a
LiteralComplex contributes its real and imaginary parts (the imaginary unit
being the complex literal 1j), and any other literal contributes its
python_value as a real component only. The catch-all for non-literal nodes is
never reached under the isinstance guard of the folding branch. -/
def literalComplexParts : Expr → ℚ × ℚ
  | .literalComplex re im _ => (re, im)
  | .literalImaginaryUnit => (0, 1)
  | .literalInteger v _ => ((v : ℚ), 0)
  | .literalFloat v _ => (v, 0)
  | _ => (0, 0)

/-- PythonComplex.__new__ (builtins.py lines 267-296, class precision -1): two
literal arguments fold to a single LiteralComplex whose real part accumulates
re(arg0) minus im(arg1) and whose imaginary part accumulates im(arg0) plus
re(arg1); two non-literal complex-kind arguments degenerate to
arg0 + arg1 * 1j built from the operator primitives; otherwise the dedicated
assembly node is allocated (whose __init__ attribute computation, lines
298-327, no claim consults). -/
def pythonComplexNew (arg0 arg1 : Expr) : Expr :=
  if arg0.isLiteral && arg1.isLiteral then
    let p0 := literalComplexParts arg0
    let p1 := literalComplexParts arg1
    .literalComplex (p0.1 - p1.2) (p0.2 + p1.1) (-1)
  else if arg0.dtype == DType.complex && arg1.dtype == DType.complex then
    .pyccelAdd arg0 (.pyccelMul arg1 .literalImaginaryUnit)
  else
    .pythonComplexNode arg0 arg1

/-- PythonFloat.__new__ (builtins.py lines 427-432, class precision -1): a
LiteralFloat already at the class precision is returned itself; any integer or
float literal folds to a LiteralFloat of the class precision; every other
argument gets a wrapper node allocated. -/
def pythonFloatNew (arg : Expr) : Expr :=
  match arg with
  | .literalFloat v p => if p = -1 then .literalFloat v p else .literalFloat v (-1)
  | .literalInteger v _ => .literalFloat ((v : ℚ)) (-1)
  | _ => .pythonFloatNode arg

/-- PythonInt.__new__ (builtins.py lines 472-476, class precision -1): an
integer literal folds to a fresh LiteralInteger at the class precision
(structurally equal to the argument exactly when the argument already has the
class precision); every other argument gets a wrapper node allocated. -/
def pythonIntNew (arg : Expr) : Expr :=
  match arg with
  | .literalInteger v _ => .literalInteger v (-1)
  | _ => .pythonIntNode arg

/-- getattr(arg, is_optional, None) truthiness (builtins.py line 219): only a
variable declared optional reports True. -/
def Expr.is_optional : Expr → Bool
  | .var _ _ _ opt => opt
  | _ => false

/-- PythonBool.__new__ (builtins.py lines 218-224): an optional argument
produces the guard PyccelAnd(PyccelIsNot(arg, Nil()), bool_node) around the
allocated bool cast node, so that the cast is False when the optional is
absent; any other argument gets the plain bool cast node. -/
def pythonBoolNew (arg : Expr) : Expr :=
  if arg.is_optional then
    .pyccelAnd (.pyccelIsNot arg .nil) (.pythonBoolNode arg)
  else
    .pythonBoolNode arg

/-- The class-level element kind of a PythonBool node (builtins.py line 211). -/
def pythonBool_dtype : DType := .bool

/-- The class-level rank of a PythonBool node (builtins.py line 213). -/
def pythonBool_rank : Nat := 0

/-- A variable of the binding layer (pyccel.ast.variable.Variable as consumed
by bind_c.py): its name, element kind and rank are the only attributes the
binding-layer constructors read. -/
structure BCVar where
  name : String
  dtype : DType
  rank : Nat
deriving DecidableEq, Repr

/-- Modelled from the spec: the scope-manager capability
get_temporary_variable(dtype, name) (pyccel.parser.scope is not in src); per
spec section 6 it allocates a fresh scalar variable with the requested,
collision-free name. -/
def scope_get_temporary_variable (dtype : DType) (name : String) : BCVar :=
  { name := name, dtype := dtype, rank := 0 }

/-- BindCFunctionDefArgument (src/pyccel/ast/bind_c.py lines 142-266): wraps a
C-compatible argument variable together with the original argument variable,
synthesizing one integer shape temporary and one integer stride temporary per
dimension of the original variable, named after the wrapped variable with
1-indexed suffixes. The inoutFlag field is the caller-supplied inout keyword
stored by the FunctionDefArgument base class (pyccel.ast.core, not in src;
modelled from the spec as the caller-specified mutability flag returned by the
base inout accessor). -/
structure BindCFunctionDefArgument where
  var : BCVar
  originalArgVar : BCVar
  rank : Nat
  shape : List BCVar
  strides : List BCVar
  inoutFlag : Bool
deriving DecidableEq, Repr

/-- The constructor BindCFunctionDefArgument.__init__ (bind_c.py lines
179-191): rank is the rank of the original argument variable; the shape and
stride temporaries are requested from the scope under the names
name_shape_i and name_stride_i for i in 1..rank, where name is the name of
the wrapped (C-compatible) variable. -/
def mkBindCFunctionDefArgument (var originalArgVar : BCVar) (inoutKw : Bool) :
    BindCFunctionDefArgument :=
  let name := var.name
  let rank := originalArgVar.rank
  { var := var, originalArgVar := originalArgVar, rank := rank,
    shape := (List.range rank).map
      (fun i => scope_get_temporary_variable DType.int
        (name ++ ("_shape_") ++ toString (i + 1))),
    strides := (List.range rank).map
      (fun i => scope_get_temporary_variable DType.int
        (name ++ ("_stride_") ++ toString (i + 1))),
    inoutFlag := inoutKw }

/-- A flattened parameter descriptor of a C-compatible signature: either the
BindCFunctionDefArgument itself or a plain FunctionDefArgument wrapping a
synthesized size or stride variable. -/
inductive BindCFnArg where
  | bindC (a : BindCFunctionDefArgument)
  | plain (v : BCVar)
deriving DecidableEq, Repr

/-- BindCFunctionDefArgument.get_all_function_def_arguments (bind_c.py lines
227-244): the argument itself, then one plain FunctionDefArgument per shape
variable, then one per stride variable. -/
def get_all_function_def_arguments (a : BindCFunctionDefArgument) : List BindCFnArg :=
  BindCFnArg.bindC a :: (a.shape.map BindCFnArg.plain ++ a.strides.map BindCFnArg.plain)

/-- BindCFunctionDefArgument.inout (bind_c.py lines 254-266): for a positive
rank the reported mutability is the list [False] + [False, False] * rank (the
data slot and every shape and stride slot all immutable); for rank zero the
caller-supplied flag of the base class is reported. -/
def BindCFunctionDefArgument.inout (a : BindCFunctionDefArgument) : Sum (List Bool) Bool :=
  if a.rank ≠ 0 then
    Sum.inl (false :: List.flatten (List.replicate a.rank [false, false]))
  else
    Sum.inr a.inoutFlag

/-- BindCFunctionDefResult (bind_c.py lines 271-336): wraps a C-compatible
result variable together with the original result variable, synthesizing one
integer shape temporary per dimension of the original variable, named after
the original variable with 1-indexed suffixes. No stride temporaries are
synthesized for results. -/
structure BindCFunctionDefResult where
  var : BCVar
  originalResVar : BCVar
  shape : List BCVar
deriving DecidableEq, Repr

/-- The constructor BindCFunctionDefResult.__init__ (bind_c.py lines 308-314):
the shape temporaries are requested from the scope under the names
name_shape_i for i in 1..rank, where name is the name of the original result
variable and rank its rank. -/
def mkBindCFunctionDefResult (var originalResVar : BCVar) : BindCFunctionDefResult :=
  let name := originalResVar.name
  { var := var, originalResVar := originalResVar,
    shape := (List.range originalResVar.rank).map
      (fun i => scope_get_temporary_variable DType.int
        (name ++ ("_shape_") ++ toString (i + 1))) }

/-- A flattened result descriptor of a C-compatible signature: either the
BindCFunctionDefResult itself or a plain FunctionDefResult wrapping a
synthesized size variable. -/
inductive BindCFnRes where
  | bindC (r : BindCFunctionDefResult)
  | plain (v : BCVar)
deriving DecidableEq, Repr

/-- BindCFunctionDefResult.get_all_function_def_results (bind_c.py lines
338-354): the result itself, then one plain FunctionDefResult per shape
variable. -/
def get_all_function_def_results (r : BindCFunctionDefResult) : List BindCFnRes :=
  BindCFnRes.bindC r :: r.shape.map BindCFnRes.plain

/-- A range node (builtins.py lines 849-917): the interval description held by
PythonRange. The bound expressions are embedded as size expressions (literal
or symbolic), which is all the claims consult. -/
structure PythonRangeNode where
  start : SizeExpr
  stop : SizeExpr
  step : SizeExpr
deriving DecidableEq, Repr

/-- PythonRange.__init__ (builtins.py lines 870-889): positional arity 1, 2 or
3 maps to (stop), (start, stop), (start, stop, step) with default start 0 and
step 1; any other arity raises ValueError. -/
def pythonRangeNew (args : List SizeExpr) : Except PyError PythonRangeNode :=
  match args with
  | [stop] => .ok { start := .lit 0, stop := stop, step := .lit 1 }
  | [start, stop] => .ok { start := start, stop := stop, step := .lit 1 }
  | [start, stop, step] => .ok { start := start, stop := stop, step := step }
  | _ => .error (.valueError ("Range has at most 3 arguments"))

/-- Modelled from the spec: the typed view of a range node as a zip source.
PythonRange defines no shape inside src (and pyccel.ast.basic is not in src);
spec sections 4.5 and 8 state that a range over literal bounds has a
statically known length consulted by zip, zip(range(5), range(10)) having the
known length 5. A canonical literal range over [0, stop) with step 1 is
therefore presented as a rank-1 integer source whose first shape component is
the literal element count stop; any other range is presented with a symbolic
first shape component. -/
def rangeAsZipSource (r : PythonRangeNode) : TypedNode :=
  match r.start, r.stop, r.step with
  | .lit 0, .lit n, .lit 1 =>
      { dtype := .int, precision := -1, rank := 1,
        shape := some [some (.lit n)], order := none, isHomogeneousAttr := none }
  | _, _, _ =>
      { dtype := .int, precision := -1, rank := 1,
        shape := some [some (.sym ("range_length"))], order := none,
        isHomogeneousAttr := none }

/-- The type-signature quadruple compared for homogeneity: element kind, final
precision, rank and layout order. -/
def signature (a : TypedNode) : DType × Int × Nat × Option Char :=
  (a.dtype, get_final_precision a, a.rank, a.order)

/-- The pairwise identity of element signatures in the words of the claims:
every two elements of the sequence agree on kind, precision, rank and order
(precision compared after resolving the default marker, per the glossary). -/
def pairwise_identical (args : List TypedNode) : Prop :=
  ∀ x ∈ args, ∀ y ∈ args, signature x = signature y

/-- Decidability of the pairwise-identity predicate (signatures carry
decidable equality), so that concrete instances evaluate. -/
instance pairwiseIdenticalDecidable (args : List TypedNode) :
    Decidable (pairwise_identical args) := by
  unfold pairwise_identical
  infer_instance

/-- A scalar integer expression node (a typical already-typed operand of
default integer precision resolved to 8 bytes). -/
def intScalarVar : TypedNode :=
  { dtype := .int, precision := 8, rank := 0, shape := none, order := none,
    isHomogeneousAttr := none }

/-- A scalar floating-point expression node. -/
def floatScalarVar : TypedNode :=
  { dtype := .float, precision := 8, rank := 0, shape := none, order := none,
    isHomogeneousAttr := none }

/-- A rank-1 integer array node of static length 4. -/
def intArrayLen4 : TypedNode :=
  { dtype := .int, precision := 8, rank := 1, shape := some [some (.lit 4)],
    order := none, isHomogeneousAttr := none }

/-- The empty tuple literal node PythonTuple() built by src (builtins.py lines
513-520): generic kind, precision 0, rank 0, no shape, no order, and
is_homogeneous False. -/
def emptyTupleElem : TypedNode := pythonTupleNew []

/-- A non-literal variable of floating-point kind at the default precision. -/
def floatVarX : Expr := .var ("x") .float (-1) false

/-- A non-optional integer variable. -/
def plainVarY : Expr := .var ("y") .int 8 false

/-- An optional integer variable (is_optional True). -/
def optionalVarZ : Expr := .var ("z") .int 8 true

/-- A rank-1 array variable of the binding layer. -/
def bcVarArr : BCVar := { name := ("arr"), dtype := .float, rank := 1 }

/-- A scalar variable of the binding layer. -/
def bcVarScalar : BCVar := { name := ("s"), dtype := .int, rank := 0 }

/-- Bridge between the head-comparison homogeneity test of the source and the
all-pairs identity of the claims: a nonempty aggregate is homogeneous exactly
when all elements have pairwise identical signatures and none is generic. -/
theorem aggregate_is_homogeneous_iff (arg0 : TypedNode) (rest : List TypedNode) :
    aggregate_is_homogeneous (arg0 :: rest) = true ↔
      (pairwise_identical (arg0 :: rest) ∧
        ∀ x ∈ arg0 :: rest, x.dtype ≠ DType.generic) := by
  have hcode : aggregate_is_homogeneous (arg0 :: rest) = true ↔
      (arg0.dtype ≠ DType.generic ∧
        ∀ a ∈ rest, a.dtype ≠ DType.generic ∧ signature arg0 = signature a) := by
    simp only [aggregate_is_homogeneous, List.all_eq_true, Bool.and_eq_true,
      bne_iff_ne, beq_iff_eq, signature, Prod.mk.injEq, and_assoc]
  rw [hcode]
  constructor
  · rintro ⟨h0, hrest⟩
    have hsig : ∀ x ∈ arg0 :: rest, signature arg0 = signature x := by
      intro x hx
      rcases List.mem_cons.mp hx with h | h
      · rw [h]
      · exact (hrest x h).2
    refine ⟨fun x hx y hy => (hsig x hx).symm.trans (hsig y hy), ?_⟩
    intro x hx
    rcases List.mem_cons.mp hx with h | h
    · rw [h]; exact h0
    · exact (hrest x h).1
  · rintro ⟨hpw, hg⟩
    refine ⟨hg arg0 (List.mem_cons_self _ _), fun a ha => ⟨hg a (List.mem_cons_of_mem _ ha), ?_⟩⟩
    exact hpw arg0 (List.mem_cons_self _ _) a (List.mem_cons_of_mem _ ha)

/-- C1: for every call to the complex factory where both arguments are
literals, the result is a single complex literal (no assembly node), whose
parts are re(a) - im(b) and im(a) + re(b) after decomposing each argument
into real and imaginary components (a non-complex literal contributing only a
real component). -/
theorem pythonComplex_literal_folding (a b : Expr)
    (ha : a.isLiteral = true) (hb : b.isLiteral = true) :
    pythonComplexNew a b =
      Expr.literalComplex
        ((literalComplexParts a).1 - (literalComplexParts b).2)
        ((literalComplexParts a).2 + (literalComplexParts b).1) (-1) := by
  simp [pythonComplexNew, ha, hb]

/-- Witness for C1: complex(LiteralInteger(2), LiteralInteger(3)) folds to the
complex literal with real part 2 and imaginary part 3 at the class precision. -/
theorem pythonComplex_literal_folding_witness :
    Expr.isLiteral (.literalInteger 2 (-1)) = true ∧
    pythonComplexNew (.literalInteger 2 (-1)) (.literalInteger 3 (-1)) =
      Expr.literalComplex 2 3 (-1) := by
  refine ⟨rfl, ?_⟩
  rw [pythonComplex_literal_folding (.literalInteger 2 (-1)) (.literalInteger 3 (-1)) rfl rfl]
  norm_num [literalComplexParts]

/-- C2 counterexample: a non-literal operand of floating-point kind is not
returned unchanged by the float cast factory (a wrapper node is allocated),
refuting the claimed identity elimination for non-literal operands of the
target kind. -/
theorem cast_identity_elimination_counterexample :
    pythonFloatNew floatVarX ≠ floatVarX := by decide

/-- C2 amended: no identity elimination happens for non-literal operands: each
cast factory allocates a wrapper node around any non-literal argument (the
bool factory guarding an optional argument with a conjunction); a LiteralFloat
already at the class precision is returned itself by the float factory, and an
integer literal already at the class precision is folded by the int factory to
a structurally equal literal. -/
theorem cast_no_identity_elimination (x : Expr) (hx : x.isLiteral = false)
    (q : ℚ) (v : Int) :
    pythonFloatNew x = .pythonFloatNode x ∧
    pythonIntNew x = .pythonIntNode x ∧
    (x.is_optional = false → pythonBoolNew x = .pythonBoolNode x) ∧
    (x.is_optional = true →
      pythonBoolNew x = .pyccelAnd (.pyccelIsNot x .nil) (.pythonBoolNode x)) ∧
    pythonFloatNew (.literalFloat q (-1)) = .literalFloat q (-1) ∧
    pythonIntNew (.literalInteger v (-1)) = .literalInteger v (-1) := by
  cases x <;>
    simp_all [pythonFloatNew, pythonIntNew, pythonBoolNew, Expr.isLiteral, Expr.is_optional]

/-- Witness for the amended C2: evaluated at a non-literal float variable and
at the literals 1.0 and 1. -/
theorem cast_no_identity_elimination_witness :
    Expr.isLiteral floatVarX = false ∧
    pythonFloatNew floatVarX = .pythonFloatNode floatVarX ∧
    pythonIntNew floatVarX = .pythonIntNode floatVarX ∧
    pythonFloatNew (.literalFloat 1 (-1)) = .literalFloat 1 (-1) := by
  have h := cast_no_identity_elimination floatVarX rfl 1 1
  exact ⟨rfl, h.1, h.2.1, h.2.2.2.2.1⟩

/-- C10: the bool cast factory returns, for an optional argument, the
conjunction PyccelAnd(PyccelIsNot(arg, Nil()), PythonBool(arg)) rather than a
bare bool node, and for any other argument the plain bool cast node, whose
class-level element kind is boolean and whose rank is 0. -/
theorem bool_cast_optional_guard (x y : Expr)
    (hx : x.is_optional = true) (hy : y.is_optional = false) :
    pythonBoolNew x = .pyccelAnd (.pyccelIsNot x .nil) (.pythonBoolNode x) ∧
    pythonBoolNew y = .pythonBoolNode y ∧
    pythonBool_dtype = DType.bool ∧ pythonBool_rank = 0 := by
  simp [pythonBoolNew, hx, hy, pythonBool_dtype, pythonBool_rank]

/-- Witness for C10: evaluated at an optional and a non-optional variable. -/
theorem bool_cast_optional_guard_witness :
    Expr.is_optional optionalVarZ = true ∧
    pythonBoolNew optionalVarZ =
      .pyccelAnd (.pyccelIsNot optionalVarZ .nil) (.pythonBoolNode optionalVarZ) ∧
    pythonBoolNew plainVarY = .pythonBoolNode plainVarY := by
  have h := bool_cast_optional_guard optionalVarZ plainVarY rfl rfl
  exact ⟨rfl, h.1, h.2.1⟩

/-- C5 counterexample: three empty tuple literals have pairwise identical
signatures (generic kind, precision 0, rank 0, no order), yet list
construction fails with a type error, refuting the claimed
if-and-only-if as stated. -/
theorem list_homogeneity_counterexample :
    pairwise_identical [emptyTupleElem, emptyTupleElem, emptyTupleElem] ∧
    pythonListNew [emptyTupleElem, emptyTupleElem, emptyTupleElem] =
      Except.error (.typeError ("Can\x27t create an inhomogeneous list")) := by
  exact ⟨by decide, rfl⟩

/-- C5 corrected: for already-typed element nodes a, b, c, list construction
fails with a type error exactly when the signatures are not pairwise
identical or the elements are of the generic (unknown) kind; on elements that
are not pairwise identical, tuple construction instead succeeds with
is_homogeneous False and, when the element ranks differ, with shape (3,)
followed by unknown dimensions. -/
theorem list_tuple_homogeneity_law (a b c : TypedNode) :
    (pythonListNew [a, b, c] =
        Except.error (.typeError ("Can\x27t create an inhomogeneous list")) ↔
      ¬ (pairwise_identical [a, b, c] ∧
          ∀ x ∈ [a, b, c], x.dtype ≠ DType.generic)) ∧
    (¬ pairwise_identical [a, b, c] →
      (pythonTupleNew [a, b, c]).isHomogeneousAttr = some false ∧
      (¬ (a.rank = b.rank ∧ b.rank = c.rank) →
        (pythonTupleNew [a, b, c]).shape =
          some (some (SizeExpr.lit 3) ::
            List.replicate (max a.rank (max b.rank c.rank)) none))) := by
  have hiff := aggregate_is_homogeneous_iff a [b, c]
  constructor
  · by_cases hh : aggregate_is_homogeneous [a, b, c] = true
    · exact iff_of_false (by simp [pythonListNew, hh]) (not_not_intro (hiff.mp hh))
    · exact iff_of_true (by simp [pythonListNew, hh]) (fun hx => hh (hiff.mpr hx))
  · intro hnpw
    have hh : ¬ aggregate_is_homogeneous [a, b, c] = true :=
      fun h => hnpw (hiff.mp h).1
    have hfalse : aggregate_is_homogeneous [a, b, c] = false := by
      revert hh; cases aggregate_is_homogeneous [a, b, c] <;> simp
    refine ⟨by simp [pythonTupleNew, hfalse], ?_⟩
    intro hrank
    have hM1 : 1 ≤ max a.rank (max b.rank c.rank) := by
      by_contra hz
      push_neg at hz
      have ha0 : a.rank = 0 := by
        have := le_max_left a.rank (max b.rank c.rank); omega
      have hb0 : b.rank = 0 := by
        have := le_trans (le_max_left b.rank c.rank)
          (le_max_right a.rank (max b.rank c.rank)); omega
      have hc0 : c.rank = 0 := by
        have := le_trans (le_max_right b.rank c.rank)
          (le_max_right a.rank (max b.rank c.rank)); omega
      exact hrank ⟨by omega, by omega⟩
    have hdisj : ¬ a.rank = max a.rank (max b.rank c.rank) ∨
        ¬ b.rank = max a.rank (max b.rank c.rank) ∨
        ¬ c.rank = max a.rank (max b.rank c.rank) := by
      by_contra hno
      push_neg at hno
      obtain ⟨h1, h2, h3⟩ := hno
      exact hrank ⟨h1.trans h2.symm, h2.trans h3.symm⟩
    have hne1 : max a.rank (max b.rank c.rank) + 1 ≠ 1 := by omega
    have hfold : List.foldl max 0 (List.map TypedNode.rank [a, b, c])
        = max a.rank (max b.rank c.rank) := by
      simp only [List.map_cons, List.map_nil, List.foldl_cons, List.foldl_nil]
      rw [Nat.zero_max, Nat.max_assoc]
    have hany : ([a, b, c].any
        (fun x => x.rank != max a.rank (max b.rank c.rank))) = true := by
      simp only [List.any_cons, List.any_nil, Bool.or_false, Bool.or_eq_true,
        bne_iff_ne]
      tauto
    simp only [pythonTupleNew, hfalse, Bool.false_eq_true, if_false, hfold]
    rw [if_neg hne1, if_pos hany]
    norm_num

/-- Witness for the corrected C5: at an integer scalar, a float scalar and a
rank-1 integer array the signatures are not pairwise identical; the list
fails, and the tuple has is_homogeneous False with shape (3,) followed by one
unknown dimension. -/
theorem list_tuple_homogeneity_law_witness :
    ¬ pairwise_identical [intScalarVar, floatScalarVar, intArrayLen4] ∧
    (pythonTupleNew [intScalarVar, floatScalarVar, intArrayLen4]).isHomogeneousAttr
      = some false ∧
    (pythonTupleNew [intScalarVar, floatScalarVar, intArrayLen4]).shape =
      some (some (SizeExpr.lit 3) :: List.replicate 1 none) := by
  have hnp : ¬ pairwise_identical [intScalarVar, floatScalarVar, intArrayLen4] := by
    decide
  have h := (list_tuple_homogeneity_law intScalarVar floatScalarVar intArrayLen4).2 hnp
  refine ⟨hnp, h.1, ?_⟩
  have h2 := h.2 (by decide)
  simpa [intScalarVar, floatScalarVar, intArrayLen4] using h2

/-- C6: a homogeneous aggregate (tuple or list) of n elements of common
effective shape S has shape (n,) + S, rank len(S) + 1, and row-major order
exactly when that rank is at least 2 (no order otherwise); the list
construction succeeds with the identical signature. -/
theorem homogeneous_aggregate_shape_law (args : List TypedNode)
    (S : List (Option SizeExpr)) (hne : args ≠ [])
    (hhom : aggregate_is_homogeneous args = true)
    (hS : ∀ a ∈ args, inner_shape_of a = S) :
    (pythonTupleNew args).shape = some (some (.lit (args.length : Int)) :: S) ∧
    (pythonTupleNew args).rank = S.length + 1 ∧
    (pythonTupleNew args).order = (if 2 ≤ S.length + 1 then some 'C' else none) ∧
    pythonListNew args = Except.ok (pythonTupleNew args) := by
  match args, hne with
  | a0 :: rest, _ =>
    have h0 : inner_shape_of a0 = S := hS a0 (List.mem_cons_self _ _)
    have horder : (if (S.length + 1 < 2 : Prop) then (none : Option Char) else some 'C')
        = (if 2 ≤ S.length + 1 then some 'C' else none) := by
      rcases Nat.lt_or_ge (S.length + 1) 2 with h | h
      · rw [if_pos h, if_neg (by omega)]
      · rw [if_neg (by omega), if_pos h]
    refine ⟨?_, ?_, ?_, ?_⟩ <;>
      simp [pythonTupleNew, pythonListNew, hhom, h0, horder]

/-- Witness for C6: two rank-1 integer arrays of static length 4 assemble
into shape (2, 4), rank 2, row-major order, identically for tuple and list. -/
theorem homogeneous_aggregate_shape_law_witness :
    aggregate_is_homogeneous [intArrayLen4, intArrayLen4] = true ∧
    (pythonTupleNew [intArrayLen4, intArrayLen4]).shape =
      some [some (.lit 2), some (.lit 4)] ∧
    (pythonTupleNew [intArrayLen4, intArrayLen4]).rank = 2 ∧
    (pythonTupleNew [intArrayLen4, intArrayLen4]).order = some 'C' ∧
    pythonListNew [intArrayLen4, intArrayLen4] =
      Except.ok (pythonTupleNew [intArrayLen4, intArrayLen4]) := by
  have h := homogeneous_aggregate_shape_law [intArrayLen4, intArrayLen4]
    [some (.lit 4)] (by decide) (by decide) (by decide)
  refine ⟨by decide, ?_, ?_, ?_, h.2.2.2⟩
  · simpa using h.1
  · simpa using h.2.1
  · simpa using h.2.2.1

set_option maxRecDepth 8192 in
/-- C7: evaluation at the failing input. Constructing max over an integer and
a float scalar raises the user-facing PyccelError, but its message repeats
the placeholder text instead of naming the offending kind/precision pairs
(the interpolation prefix is missing on the string literal at builtins.py
line 1057), while min over the same arguments names int(8) and float(8) as
the claim describes; max and min over two integer scalars of equal precision
succeed with the common integer kind. -/
theorem max_min_message_evaluation :
    pythonMaxNew [intScalarVar, floatScalarVar] =
      Except.error (.pyccelError (("Cannot determine final dtype of \x27max\x27 ")
        ++ ("call with arguments of different types (\x7bxi.dtype\x7d(\x7bxi.precision\x7d), ")
        ++ ("\x7bxi.dtype\x7d(\x7bxi.precision\x7d)). Please cast arguments to the desired dtype"))) ∧
    pythonMinNew [intScalarVar, floatScalarVar] =
      Except.error (.pyccelError (("Cannot determine final dtype of \x27min\x27 ")
        ++ ("call with arguments of different types (int(8), ")
        ++ ("float(8)). Please cast arguments to the desired dtype"))) ∧
    pythonMaxNew [intScalarVar, intScalarVar] =
      Except.ok { dtype := .int, precision := 8, rank := 0, shape := none,
                  order := none, isHomogeneousAttr := none } ∧
    pythonMinNew [intScalarVar, intScalarVar] =
      Except.ok { dtype := .int, precision := 8, rank := 0, shape := none,
                  order := none, isHomogeneousAttr := none } := by
  refine ⟨by decide, by decide, by decide, by decide⟩

/-- C3: a binding-layer argument wrapper over an original variable of rank r
expands to exactly 1 + 2r flattened descriptors in the fixed order self,
shape_1..shape_r, stride_1..stride_r, the synthesized variables being named
name_shape_i and name_stride_i for i in 1..r; a result wrapper over a rank-r
original expands to exactly 1 + r descriptors (shape only, no strides). -/
theorem bindc_descriptor_expansion (v o : BCVar) (fl : Bool) :
    (get_all_function_def_arguments (mkBindCFunctionDefArgument v o fl)).length
        = 1 + 2 * o.rank ∧
    get_all_function_def_arguments (mkBindCFunctionDefArgument v o fl) =
      BindCFnArg.bindC (mkBindCFunctionDefArgument v o fl) ::
        ((List.range o.rank).map (fun i => BindCFnArg.plain
            (scope_get_temporary_variable DType.int
              (v.name ++ ("_shape_") ++ toString (i + 1)))) ++
          (List.range o.rank).map (fun i => BindCFnArg.plain
            (scope_get_temporary_variable DType.int
              (v.name ++ ("_stride_") ++ toString (i + 1))))) ∧
    (get_all_function_def_results (mkBindCFunctionDefResult v o)).length
        = 1 + o.rank ∧
    get_all_function_def_results (mkBindCFunctionDefResult v o) =
      BindCFnRes.bindC (mkBindCFunctionDefResult v o) ::
        (List.range o.rank).map (fun i => BindCFnRes.plain
          (scope_get_temporary_variable DType.int
            (o.name ++ ("_shape_") ++ toString (i + 1)))) := by
  refine ⟨?_, ?_, ?_, ?_⟩
  · simp [get_all_function_def_arguments, mkBindCFunctionDefArgument]
    omega
  · simp [get_all_function_def_arguments, mkBindCFunctionDefArgument,
      List.map_map, Function.comp_def]
  · simp [get_all_function_def_results, mkBindCFunctionDefResult]
    omega
  · simp [get_all_function_def_results, mkBindCFunctionDefResult,
      List.map_map, Function.comp_def]

/-- Flattening rank copies of the pair [False, False] gives 2 * rank
immutability flags. -/
theorem replicate_pair_flatten (n : Nat) :
    List.flatten (List.replicate n ([false, false] : List Bool)) =
      List.replicate (2 * n) false := by
  induction n with
  | zero => rfl
  | succ k ih =>
      rw [List.replicate_succ, List.flatten_cons, ih, Nat.mul_succ,
        show 2 * k + 2 = 2 + 2 * k by omega, List.replicate_add]
      rfl

/-- C4 counterexample: a rank-1 argument wrapper whose caller-supplied inout
flag is True does not report that flag for the data slot; the reported list
is all-immutable. -/
theorem bindc_inout_counterexample :
    (mkBindCFunctionDefArgument bcVarArr bcVarArr true).inout ≠
      Sum.inl [true, false, false] ∧
    (mkBindCFunctionDefArgument bcVarArr bcVarArr true).inout =
      Sum.inl [false, false, false] := by
  exact ⟨by decide, by decide⟩

/-- C4 corrected: for a rank-0 argument the reported mutability is the
caller-specified flag; for an array argument (rank at least 1) the data slot
and every synthesized shape and stride slot are all reported immutable,
regardless of the caller-specified flag. -/
theorem bindc_inout_reporting (v o : BCVar) (fl : Bool) :
    (o.rank = 0 →
      (mkBindCFunctionDefArgument v o fl).inout = Sum.inr fl) ∧
    (o.rank ≠ 0 →
      (mkBindCFunctionDefArgument v o fl).inout =
        Sum.inl (List.replicate (1 + 2 * o.rank) false)) := by
  constructor
  · intro h
    simp [BindCFunctionDefArgument.inout, mkBindCFunctionDefArgument, h]
  · intro h
    simp only [BindCFunctionDefArgument.inout, mkBindCFunctionDefArgument,
      h, if_true, ne_eq, not_false_eq_true, replicate_pair_flatten]
    rw [Nat.add_comm, List.replicate_succ]

/-- Witness for the corrected C4: a rank-0 wrapper reports the caller flag
True; a rank-1 wrapper with caller flag True reports three False slots. -/
theorem bindc_inout_reporting_witness :
    bcVarScalar.rank = 0 ∧
    (mkBindCFunctionDefArgument bcVarScalar bcVarScalar true).inout = Sum.inr true ∧
    bcVarArr.rank ≠ 0 ∧
    (mkBindCFunctionDefArgument bcVarArr bcVarArr true).inout =
      Sum.inl (List.replicate 3 false) := by
  refine ⟨rfl, (bindc_inout_reporting bcVarScalar bcVarScalar true).1 rfl,
    by decide, ?_⟩
  simpa [bcVarArr] using (bindc_inout_reporting bcVarArr bcVarArr true).2 (by decide)

/-- C8: for a zip over at least two sources, the length is the integer
minimum of the statically known source lengths when any exist, otherwise the
first shape component of the first source kept as an expression; in
particular zip(range(5), range(10)) has the statically known length 5. -/
theorem zip_length_law (args : List TypedNode) (h2 : 2 ≤ args.length) :
    (∀ m : Int, (statically_known_lengths args).min? = some m →
      pythonZipNew args = Except.ok (.known m)) ∧
    ((statically_known_lengths args) = [] → ∀ a0, args.head? = some a0 →
      pythonZipNew args = Except.ok (.expr (shape0 a0))) ∧
    (∀ r5 r10 : PythonRangeNode,
      pythonRangeNew [SizeExpr.lit 5] = Except.ok r5 →
      pythonRangeNew [SizeExpr.lit 10] = Except.ok r10 →
      pythonZipNew [rangeAsZipSource r5, rangeAsZipSource r10] =
        Except.ok (.known 5)) := by
  obtain ⟨a0, a1, rest, rfl⟩ : ∃ a0 a1 rest, args = a0 :: a1 :: rest := by
    cases args with
    | nil => simp at h2
    | cons x t =>
      cases t with
      | nil => simp at h2
      | cons y r => exact ⟨x, y, r, rfl⟩
  refine ⟨?_, ?_, ?_⟩
  · intro m hm
    cases hk : statically_known_lengths (a0 :: a1 :: rest) with
    | nil => rw [hk] at hm; simp [List.min?] at hm
    | cons l ls =>
        rw [hk] at hm
        have hmin : (l :: ls).min? = some (ls.foldl min l) := rfl
        rw [hmin, Option.some.injEq] at hm
        subst hm
        simp [pythonZipNew, hk]
  · intro hk b hb
    rw [List.head?_cons, Option.some.injEq] at hb
    subst hb
    simp [pythonZipNew, hk]
  · intro r5 r10 h5 h10
    have e5 : r5 = { start := .lit 0, stop := .lit 5, step := .lit 1 } := by
      have := h5
      simp [pythonRangeNew, Except.ok.injEq] at this
      exact this.symm
    have e10 : r10 = { start := .lit 0, stop := .lit 10, step := .lit 1 } := by
      have := h10
      simp [pythonRangeNew, Except.ok.injEq] at this
      exact this.symm
    subst e5
    subst e10
    rfl

/-- Witness for C8: applied to the sources built from range(5) and
range(10). -/
theorem zip_length_law_witness :
    2 ≤ ([rangeAsZipSource { start := .lit 0, stop := .lit 5, step := .lit 1 },
          rangeAsZipSource { start := .lit 0, stop := .lit 10, step := .lit 1 }] :
            List TypedNode).length ∧
    pythonZipNew [rangeAsZipSource { start := .lit 0, stop := .lit 5, step := .lit 1 },
                  rangeAsZipSource { start := .lit 0, stop := .lit 10, step := .lit 1 }] =
      Except.ok (.known 5) := by
  refine ⟨by decide, ?_⟩
  exact (zip_length_law
    [rangeAsZipSource { start := .lit 0, stop := .lit 5, step := .lit 1 },
     rangeAsZipSource { start := .lit 0, stop := .lit 10, step := .lit 1 }]
    (by decide)).2.2 _ _ rfl rfl

/-- C9: the len factory, on an argument not known homogeneous (in particular
an inhomogeneous aggregate), returns the first shape component directly with
no node allocated; on an argument reporting is_homogeneous True it allocates
the dedicated len node, whose class-level kind is integer and rank 0. -/
theorem len_dispatch (x : TypedNode) (s : Option SizeExpr)
    (r : List (Option SizeExpr)) (hx : getattr_is_homogeneous x = false)
    (hs : x.shape = some (s :: r)) (y : TypedNode)
    (hy : getattr_is_homogeneous y = true) :
    pythonLenNew x = .shapeComponent s ∧
    pythonLenNew y = .lenNode y ∧
    pythonLen_dtype = DType.int ∧ pythonLen_rank = 0 := by
  refine ⟨?_, ?_, rfl, rfl⟩
  · simp [pythonLenNew, hx, shape0, hs]
  · simp [pythonLenNew, hy]

/-- Witness for C9: the inhomogeneous tuple (int_scalar, float_scalar) has
len returned as its first shape component, the literal 2; the spec-modelled
array variable gets a dedicated len node. -/
theorem len_dispatch_witness :
    getattr_is_homogeneous (pythonTupleNew [intScalarVar, floatScalarVar]) = false ∧
    (pythonTupleNew [intScalarVar, floatScalarVar]).shape =
      some (some (SizeExpr.lit 2) :: []) ∧
    pythonLenNew (pythonTupleNew [intScalarVar, floatScalarVar]) =
      .shapeComponent (some (SizeExpr.lit 2)) ∧
    pythonLenNew specArrayVariableNode = .lenNode specArrayVariableNode := by
  have h := len_dispatch (pythonTupleNew [intScalarVar, floatScalarVar])
    (some (SizeExpr.lit 2)) [] (by decide) (by decide)
    specArrayVariableNode (by decide)
  exact ⟨by decide, by decide, h.1, h.2.1⟩
